import Mathlib

/-!
Verification development for the ConceptWhitening training script
(`train_imagenet.py`).  The script trains an image classifier whose
backbone contains concept-whitening layers.  We shallowly embed the
control structure of `train`, `rotate_cpt`, `main`, the checkpoint-resume
logic, the hook-based activation capture of `print_concept_top5` and
`get_optimal_direction`, and the concept-ranking computation, and prove
the spec-level properties about them.

Conventions: machine floats are modelled as exact rationals (`ℚ`); the
model internals living in `MODELS/` (iterative normalization, the
rotation update, the mode attribute of a whitening layer) are not part
of the script, so where a claim needs them they are modelled from the
spec, with a doc comment saying so.
-/

open Matrix

/-- Events emitted while `train` processes one epoch.  `changeMode k`
is `model.module.change_mode(k)` (k = 1 is CALIBRATE, k = 0 is NORMAL),
`setTrainFlag b` is `model.train()` / `model.eval()`, `gradOff`/`gradOn`
delimit the `torch.no_grad()` block, `conceptForward b` is a forward
pass of concept batch `b`, and `clsForward`/`backwardStep`/`optStep`
are the classification forward, backward and optimizer step of batch
`i`. -/
inductive TEv where
  | setTrainFlag : Bool → TEv
  | changeMode : Nat → TEv
  | gradOff : TEv
  | gradOn : TEv
  | conceptForward : Nat → TEv
  | clsForward : Nat → TEv
  | backwardStep : Nat → TEv
  | optStep : Nat → TEv
deriving DecidableEq, Repr

/-- The calibration sub-pass at the top of the training-batch loop
(`train`, lines 336-345): `model.eval()`, `change_mode(1)`, a
`no_grad` block forwarding concept batches until the `break` after the
first one, then `change_mode(0)`, `model.train()`.  `cb` is the
concept loader's batch sequence; the `break` is `cb.take 1`. -/
def calibEvents (cb : List Nat) : List TEv :=
  [TEv.setTrainFlag false, TEv.changeMode 1, TEv.gradOff]
    ++ (cb.take 1).map TEv.conceptForward
    ++ [TEv.gradOn, TEv.changeMode 0, TEv.setTrainFlag true]

/-- Events for classification batch `i` in `train`: the calibration
sub-pass when `(i + 1) % 2 = 0`, then the classification forward,
backward and optimizer step. -/
def batchEvents (cb : List Nat) (i : Nat) : List TEv :=
  (if (i + 1) % 2 = 0 then calibEvents cb else [])
    ++ [TEv.clsForward i, TEv.backwardStep i, TEv.optStep i]

/-- The full event trace of one call to `train`: `model.train()` first,
then the batch loop over `numBatches` classification batches. -/
def trainEvents (cb : List Nat) (numBatches : Nat) : List TEv :=
  TEv.setTrainFlag true :: ((List.range numBatches).map (batchEvents cb)).flatten

/-- The event trace of `rotate_cpt` (lines 309-322): `model.eval()`,
`change_mode(1)`, a `no_grad` block running 10 full passes over the
concept loader, then `change_mode(0)`. -/
def rotateCptEvents (cb : List Nat) : List TEv :=
  [TEv.setTrainFlag false, TEv.changeMode 1, TEv.gradOff]
    ++ ((List.range 10).map (fun _ => cb.map TEv.conceptForward)).flatten
    ++ [TEv.gradOn, TEv.changeMode 0]

/-- Whitening-layer mode after an event: `change_mode(k)` sets it to
`k`, every other event leaves it unchanged. -/
def stepMode (m : Nat) : TEv → Nat
  | TEv.changeMode k => k
  | _ => m

/-- Mode after running a whole event list from mode `m`. -/
def modeAfter (m : Nat) (es : List TEv) : Nat :=
  es.foldl stepMode m

/-- Pair each event with the mode in effect at the moment it executes
(the mode before the event itself takes effect). -/
def annotateMode (m : Nat) : List TEv → List (TEv × Nat)
  | [] => []
  | e :: rest => (e, m) :: annotateMode (stepMode m e) rest

/-- Check that an annotated event is not a classification forward,
backward or optimizer step executing in CALIBRATE mode.  The single
mode value models the shared flag: `change_mode` propagates one value
to every configured whitening layer at once (spec 4.3). -/
def clsAtNormal : TEv × Nat → Bool
  | (TEv.clsForward _, m) => m == 0
  | (TEv.backwardStep _, m) => m == 0
  | (TEv.optStep _, m) => m == 0
  | _ => true

/-- Modelled from the spec: the `mode` attribute of a whitening layer
(class `IterNorm`-style, in `MODELS/`, not in `src/`) defaults to
NORMAL, i.e. 0. -/
def modeDefault : Nat := 0

/-- State snapshot of the model: classification-path parameters (every
parameter outside the whitening layers), whitening-layer
statistics/rotation buffers, the whitening mode attribute, and the
`training` flag toggled by `model.train()`/`model.eval()`. -/
structure ModelSnapshot where
  clsParams : List ℚ
  wlStats : List ℚ
  mode : Nat
  trainingFlag : Bool
deriving DecidableEq, Repr

/-- Modelled from the spec: the model's `state_dict` serializes weights
and statistics (parameters and registered buffers); the whitening
`mode` is a plain attribute of the layer class in `MODELS/` (not in
`src/`) and is not part of `state_dict` ("checkpoints store
weights/statistics, not mode"). -/
def stateDict (s : ModelSnapshot) : List ℚ := s.clsParams ++ s.wlStats

/-- The record `main` saves via `save_checkpoint` (lines 262-268):
keys `epoch` (stored as `epoch + 1`), `arch`, `state_dict`,
`best_prec1`, `optimizer`. -/
structure CheckpointRec where
  epoch : Nat
  arch : String
  state_dict : List ℚ
  best_prec1 : ℚ
  optimizerSt : Option (List ℚ)
deriving DecidableEq, Repr

/-- Building the checkpoint record in `main` from the loop epoch, the
architecture, the model snapshot, the best score and the optimizer
state. -/
def checkpointOf (epoch : Nat) (arch : String) (s : ModelSnapshot)
    (best : ℚ) (opt : List ℚ) : CheckpointRec :=
  { epoch := epoch + 1, arch := arch, state_dict := stateDict s,
    best_prec1 := best, optimizerSt := some opt }

/-- `model.train()` / `model.eval()` on the model state. -/
def setTrainingFlag (b : Bool) (s : ModelSnapshot) : ModelSnapshot :=
  { s with trainingFlag := b }

/-- `model.module.change_mode(k)` on the model state. -/
def changeModeS (k : Nat) (s : ModelSnapshot) : ModelSnapshot :=
  { s with mode := k }

/-- Modelled from the spec (4.2 step 4): the forward pass of a concept
batch executed in CALIBRATE mode under `torch.no_grad()` updates only
whitening-layer state (running rotation and its accumulators);
classification parameters receive no gradient and are untouched.  The
concrete update rule lives in `MODELS/iterative_normalization.py`,
which is not in `src/`, so it is kept abstract as a function `upd` on
the whitening-layer state. -/
def calibForwardS (upd : List ℚ → List ℚ) (s : ModelSnapshot) : ModelSnapshot :=
  { s with wlStats := upd s.wlStats }

/-- The calibration sub-pass of `train` (lines 336-345) as a state
transformer on the pair (model state, optimizer state):
`model.eval()`; `change_mode(1)`; forward of one concept batch under
`no_grad`; `change_mode(0)`; `model.train()`.  The optimizer object is
never touched by these lines. -/
def calibSubPassS (upd : List ℚ → List ℚ) (s : ModelSnapshot) (o : List ℚ) :
    ModelSnapshot × List ℚ :=
  (setTrainingFlag true
    (changeModeS 0 (calibForwardS upd (changeModeS 1 (setTrainingFlag false s)))), o)

/-- Python's `str.split(sep)` for a one-character separator, at the
level of character lists: `''.split(',') = ['']`, and separators at
the ends produce empty groups, as in Python. -/
def splitChars (sep : Char) : List Char → List (List Char)
  | [] => [[]]
  | c :: rest =>
      match splitChars sep rest with
      | [] => if c = sep then [[], []] else [[c]]
      | g :: gs => if c = sep then [] :: g :: gs else (c :: g) :: gs

/-- Python's `'_'.join(groups)` at the level of character lists. -/
def joinUnderscore : List (List Char) → List Char
  | [] => []
  | [g] => g
  | g :: gs => g ++ '_' :: joinUnderscore gs

/-- The checkpoint-path rewrite at the top of the resume branch
(line 136):
`args.resume = args.resume[:-19] + '_' + '_'.join(args.whitened_layers.split(',')) + args.resume[-19:]`.
Python slices strings by code point, so the slicing is modelled on the
character list; Python's negative slices are `take (n - 19)` /
`drop (n - 19)` with truncated subtraction, which matches Python for
strings shorter than 19 as well. -/
def insertLayerTag (resume whitened : String) : String :=
  let cs := resume.toList
  let n := cs.length - 19
  String.mk (cs.take n ++ '_' :: (joinUnderscore (splitChars ',' whitened.toList) ++ cs.drop n))

/-- The contents of a loaded checkpoint file. -/
structure Ckpt where
  epoch : Nat
  best_prec1 : ℚ
  state_dict : List ℚ
  optimizerSt : Option (List ℚ)
deriving DecidableEq, Repr

/-- The filesystem as the resume branch sees it: which paths exist
and what `torch.load` returns on each path. -/
structure ResumeEnv where
  fileExists : String → Bool
  loadCkpt : String → Ckpt

/-- The arguments consumed by the resume branch.  The parser defaults
are `start-epoch = 0` (line 41) and the global `best_prec1 = 0`
(line 59). -/
structure ResumeArgs where
  resume : String
  whitened : String
  start_epoch : Nat
  best : ℚ

/-- Outcome of the resume branch of `main` (lines 135-148). -/
structure ResumeResult where
  start_epoch : Nat
  best_prec1 : ℚ
  modelLoaded : Option (List ℚ)
  optimizerSt : List ℚ
  messages : List String
deriving DecidableEq, Repr

/-- The resume branch of `main` (lines 135-148): when `args.resume` is
non-empty, rewrite the path, test existence, and either load epoch,
best score, model state and (only when the key is present) optimizer
state, or print a no-checkpoint message and keep the defaults.  `opt0`
is the freshly initialized optimizer state from line 117. -/
def resumeStep (env : ResumeEnv) (a : ResumeArgs) (opt0 : List ℚ) : ResumeResult :=
  if a.resume = "" then
    { start_epoch := a.start_epoch, best_prec1 := a.best,
      modelLoaded := none, optimizerSt := opt0, messages := [] }
  else
    let p := insertLayerTag a.resume a.whitened
    if env.fileExists p then
      let c := env.loadCkpt p
      { start_epoch := c.epoch, best_prec1 := c.best_prec1,
        modelLoaded := some c.state_dict,
        optimizerSt := match c.optimizerSt with
          | some o => o
          | none => opt0,
        messages := ["=> loading checkpoint " ++ p,
                     "=> loaded checkpoint " ++ p] }
    else
      { start_epoch := a.start_epoch, best_prec1 := a.best,
        modelLoaded := none, optimizerSt := opt0,
        messages := ["=> no checkpoint found at " ++ p] }

/-- Sum of a spatial activation grid, modelling `tensor.sum((2,3))` for
one image and one axis. -/
def gridSum (g : List (List ℚ)) : ℚ :=
  (g.map (fun r => r.sum)).sum

/-- Number of spatial positions of a grid. -/
def gridCount (g : List (List ℚ)) : Nat :=
  (g.map (fun r => r.length)).sum

/-- Spatial mean of a grid; used only by the spec-side ranking
definition (the spec speaks of the spatial mean, the script computes
the spatial sum). -/
def gridMean (g : List (List ℚ)) : ℚ :=
  gridSum g / (gridCount g : ℚ)

/-- The activation map of a fixed model state: for a validation image
path, a hooked layer and a concept axis, the rotated activation grid
that the hook of `print_concept_top5` computes for that image
(`X_hat` after whitening, multiplication by `running_rot` and the
reshape, restricted to axis `k`). -/
abbrev ActMap := String → Nat → Nat → List (List ℚ)

/-- One captured hook output for a batch at one layer: the per-image
axis-indexed activation grids, in batch order. -/
def capturedOutput (A : ActMap) (batch : List String) (l : Nat) :
    List (Nat → List (List ℚ)) :=
  batch.map (fun p => A p l)

/-- The value of the `outputs` list right after `model(input_var)`
returns in the batch loop of `print_concept_top5` (lines 493-495):
the line `outputs = []` rebinds the list immediately before the
forward, so the incoming value `stale` is discarded, and the forward
then appends one captured output per hooked layer in layer order. -/
def outputsAfterForward (A : ActMap) (layerList : List Nat)
    (stale : List (List (Nat → List (List ℚ)))) (batch : List String) :
    List (List (Nat → List (List ℚ))) :=
  layerList.map (capturedOutput A batch)

/-- Scores extracted from one captured output:
`output.sum((2,3))[:,k]` (line 498). -/
def scoresOfOutput (k : Nat) (out : List (Nat → List (List ℚ))) : List ℚ :=
  out.map (fun act => gridSum (act k))

/-- The `vals` matrix built by the batch loop of `print_concept_top5`
(lines 491-503), one row per hooked layer, threading the `outputs`
variable through the loop: each iteration discards the incoming value
(`outputs = []`), captures the batch, turns each capture into a row of
scores, and the rows are concatenated across batches
(`np.concatenate((vals,val),1)`). -/
def valsRows (A : ActMap) (layerList : List Nat) (k : Nat) :
    List (List (Nat → List (List ℚ))) → List (List String) → List (List ℚ)
  | _, [] => layerList.map (fun _ => [])
  | outputsVar, b :: rest =>
      let cleared := outputsAfterForward A layerList outputsVar b
      List.zipWith (· ++ ·) (cleared.map (scoresOfOutput k))
        (valsRows A layerList k cleared rest)

/-- The `paths` list: batch path tuples concatenated in iteration
order (line 492). -/
def allPaths (batches : List (List String)) : List String :=
  batches.flatten

/-- Per-layer score list, the row of `vals` belonging to hooked layer
`l`: spatial sums of axis `k`, in validation iteration order. -/
def layerScores (A : ActMap) (l k : Nat) (batches : List (List String)) : List ℚ :=
  (batches.map (fun b => b.map (fun p => gridSum (A p l k)))).flatten

/-- Descending comparison on (score, path) entries.  Python's
`arr.sort(key = lambda t: t[0], reverse = True)` (line 507) is a
stable descending sort; insertion sort with this non-strict relation
is exactly that. -/
def descRel (a b : ℚ × String) : Prop := b.1 ≤ a.1

instance : DecidableRel descRel := fun a b => inferInstanceAs (Decidable (b.1 ≤ a.1))

/-- `arr.sort(key = lambda t: t[0], reverse = True)`: stable
descending sort of the zipped (score, path) entries. -/
def sortEntries (l : List (ℚ × String)) : List (ℚ × String) :=
  List.insertionSort descRel l

/-- The sorted (score, path) array for hooked layer `l` and axis `k`:
`arr = list(zip(list(vals[i,:]), list(paths)))` then the stable
descending sort (lines 506-507). -/
def rankedForLayer (A : ActMap) (l k : Nat) (batches : List (List String)) :
    List (ℚ × String) :=
  sortEntries ((layerScores A l k batches).zip (allPaths batches))

/-- Spec-side score list, following the spec words: "compute, for
every image, the spatial mean of that axis's rotated activation". -/
def layerMeanScores (A : ActMap) (l k : Nat) (batches : List (List String)) : List ℚ :=
  (batches.map (fun b => b.map (fun p => gridMean (A p l k)))).flatten

/-- Spec-side ranking: entries scored by the spatial mean, stable
descending sort. -/
def rankedByMeanSpec (A : ActMap) (l k : Nat) (batches : List (List String)) :
    List (ℚ × String) :=
  sortEntries ((layerMeanScores A l k batches).zip (allPaths batches))

/-- Destination filename for rank `rank` at layer name `lname`:
`folder + 'layer' + layer + '_' + str(j+1) + '.jpg'` (line 515). -/
def fileNameFor (folder lname : String) (rank : Nat) : String :=
  folder ++ "layer" ++ lname ++ "_" ++ toString rank ++ ".jpg"

/-- The copy operations performed for one layer: for `j in range(50)`,
copy `arr[j][1]` to the rank-encoded filename (lines 508-515); given
as (destination, source) pairs. -/
def copiesForLayer (folder lname : String) (sorted : List (ℚ × String)) :
    List (String × String) :=
  (sorted.take 50).enum.map (fun je => (fileNameFor folder lname (je.1 + 1), je.2.2))

/-- The `outputs` list of `get_optimal_direction` after the whole
concept loop (lines 276-304): it is initialized once (`outputs = []`,
line 276) and each forward pass appends one captured per-channel mean
per hooked layer, so captures accumulate across all concept batches.
`C b l` is the captured mean vector of batch `b` at layer `l`. -/
def godOutputs (C : Nat → Nat → List ℚ) (layerList : List Nat)
    (batches : List Nat) : List (List ℚ) :=
  (batches.map (fun b => layerList.map (fun l => C b l))).flatten

/-- The value the `outputs` list of `get_optimal_direction` holds just
before the forward pass of batch number `t` (0-based): everything
captured for the first `t` batches; it is never re-cleared inside the
loop. -/
def godOutputsBeforeForward (C : Nat → Nat → List ℚ) (layerList : List Nat)
    (batches : List Nat) (t : Nat) : List (List ℚ) :=
  godOutputs C layerList (batches.take t)

/-- Modelled from the spec (4.4): `register_forward_hook` attaches an
observer; every hook in the script returns `None`, and under PyTorch
hook semantics a `None` return leaves the hooked layer's return value
unchanged.  `hookedForward f cap x` is the hooked layer: it produces
the layer's own output together with the captured value. -/
def hookedForward {α β γ : Type} (f : α → β) (cap : α → γ) (x : α) : β × γ :=
  (f x, cap x)

/-- Concrete activation capture used to exhibit the accumulation of
`outputs` in `get_optimal_direction`: batch `b` captures a vector of
length `b + 1`. -/
def cexCapture : Nat → Nat → List ℚ := fun b _ => List.replicate (b + 1) 1

/-- A calibration step of the rotation matrix.  Modelled from the spec
(4.2 step 3 and design note 9): the update applied during a
CALIBRATE-mode forward "is a skew-symmetric generator applied via a
retraction such as a Cayley map"; the concrete rule lives in
`MODELS/iterative_normalization.py`, which is not in `src/`.  A step
carries the generator `gen` and the matrix `inv`, intended as the
inverse of `1 + gen`. -/
structure CalStep (n : ℕ) where
  gen : Matrix (Fin n) (Fin n) ℚ
  inv : Matrix (Fin n) (Fin n) ℚ

/-- Cayley retraction of a step: `(1 - S) * (1 + S)⁻¹`. -/
def cayley {n : ℕ} (s : CalStep n) : Matrix (Fin n) (Fin n) ℚ :=
  (1 - s.gen) * s.inv

/-- A step is valid when `gen` is skew-symmetric and `inv` is a
two-sided inverse of `1 + gen`. -/
def validStep {n : ℕ} (s : CalStep n) : Prop :=
  s.genᵀ = -s.gen ∧ (1 + s.gen) * s.inv = 1 ∧ s.inv * (1 + s.gen) = 1

/-- Orthogonality of a rotation matrix: `Rᵀ * R = 1`. -/
def isOrthogonalM {n : ℕ} (R : Matrix (Fin n) (Fin n) ℚ) : Prop :=
  Rᵀ * R = 1

/-- One calibration update of `running_rot`: multiply by the Cayley
retraction of the step's generator. -/
def calibUpdateRot {n : ℕ} (s : CalStep n) (R : Matrix (Fin n) (Fin n) ℚ) :
    Matrix (Fin n) (Fin n) ℚ :=
  cayley s * R

/-- The rotation after a sequence of calibration updates (e.g. the 10
passes over the concept loader in `rotate_cpt`, each forward pass in
CALIBRATE mode contributing one update). -/
def applySteps {n : ℕ} (steps : List (CalStep n)) (R0 : Matrix (Fin n) (Fin n) ℚ) :
    Matrix (Fin n) (Fin n) ℚ :=
  steps.foldl (fun R s => calibUpdateRot s R) R0

/-- Concrete skew generator for the orthogonality witness. -/
def wSkew : Matrix (Fin 2) (Fin 2) ℚ := !![0, 1; -1, 0]

/-- Concrete inverse of `1 + wSkew`. -/
def wInv : Matrix (Fin 2) (Fin 2) ℚ := !![1/2, -1/2; 1/2, 1/2]

/-- Events emitted by the body of `main` after data loading. -/
inductive MEv where
  | adjustLR : Nat → MEv
  | trainEpochEv : Nat → MEv
  | validateEv : Nat → MEv
  | saveCkptEv : Nat → MEv
  | conceptExport : MEv
deriving DecidableEq, Repr

/-- The body of one epoch of the loop in `main` (lines 248-268):
adjust the learning rate, train, validate, save a checkpoint (whose
`epoch` field is `epoch + 1`). -/
def epochBody (e : Nat) : List MEv :=
  [MEv.adjustLR e, MEv.trainEpochEv e, MEv.validateEv e, MEv.saveCkptEv (e + 1)]

/-- The epoch loop of `main` followed by the concept-ranking export
(lines 248-269): `for epoch in range(args.start_epoch,
args.start_epoch + 5)` — the `--epochs` option is not consulted (the
line that would use it, line 249, is commented out) — then one call to
`print_concept_top5`. -/
def mainLoopEvents (startEpoch epochsArg : Nat) : List MEv :=
  ((List.range' startEpoch 5).map epochBody).flatten ++ [MEv.conceptExport]

/-- The full per-layer result of one invocation of
`print_concept_top5` for the hooked layer at position `i` of the layer
list: row `i` of the `vals` matrix zipped with the paths, stable
descending sort, top-50 copies (lines 491-515).  `stale` is whatever
the `outputs` variable holds when the invocation starts. -/
def invocationResultForLayer (A : ActMap) (layerList : List Nat) (i k : Nat)
    (folder lname : String) (stale : List (List (Nat → List (List ℚ))))
    (batches : List (List String)) : List (String × String) :=
  copiesForLayer folder lname
    (sortEntries (((valsRows A layerList k stale batches).getD i []).zip (allPaths batches)))

/-- Filesystem on which only the derived (tagged) checkpoint path
exists, with a checkpoint at epoch 3 stored there. -/
def cexEnvC6 : ResumeEnv :=
  { fileExists := fun s => s == "ab_1_checkpoint.pth.tar",
    loadCkpt := fun _ =>
      { epoch := 3, best_prec1 := 1, state_dict := [5], optimizerSt := none } }

/-- Arguments whose supplied resume path does not exist on
`cexEnvC6`, although the derived path does. -/
def cexArgsC6 : ResumeArgs :=
  { resume := "ab_checkpoint.pth.tar", whitened := "1", start_epoch := 0, best := 0 }

/-- Filesystem with no checkpoint files at all. -/
def missEnv : ResumeEnv :=
  { fileExists := fun _ => false,
    loadCkpt := fun _ => { epoch := 0, best_prec1 := 0, state_dict := [], optimizerSt := none } }

/-- Resume arguments with the parser defaults for start epoch and best
score. -/
def missArgs : ResumeArgs :=
  { resume := "x_checkpoint.pth.tar", whitened := "1,2", start_epoch := 0, best := 0 }

/-- Filesystem holding, at every path, a checkpoint record that lacks
the optimizer sub-record. -/
def c7Env : ResumeEnv :=
  { fileExists := fun _ => true,
    loadCkpt := fun _ =>
      { epoch := 7, best_prec1 := 2, state_dict := [1, 2], optimizerSt := none } }

/-- Resume arguments used with `c7Env`. -/
def c7Args : ResumeArgs :=
  { resume := "m_checkpoint.pth.tar", whitened := "3", start_epoch := 0, best := 0 }

/-- A validation set of 55 images in one batch. -/
def wBatches : List (List String) :=
  [(List.range 55).map (fun n => "img" ++ toString n)]

/-- An activation map giving every image the same 1-by-1 grid, so all
scores tie and the stable sort must keep iteration order. -/
def wAct : ActMap := fun _ _ _ => [[1]]

/-- The calibration step built from the concrete skew generator and
its Cayley inverse. -/
def wStep : CalStep 2 := ⟨wSkew, wInv⟩

theorem annotateMode_append (m : Nat) (l₁ l₂ : List TEv) :
    annotateMode m (l₁ ++ l₂)
      = annotateMode m l₁ ++ annotateMode (modeAfter m l₁) l₂ := by
  induction l₁ generalizing m with
  | nil => simp [annotateMode, modeAfter]
  | cons e rest ih =>
      simp [annotateMode, modeAfter, List.foldl_cons] at *
      exact ih (stepMode m e)

theorem modeAfter_batchEvents (cb : List Nat) (i m : Nat) :
    modeAfter m (batchEvents cb i) = m ∨ modeAfter m (batchEvents cb i) = 0 := by
  by_cases h : (i + 1) % 2 = 0
  · right
    simp [batchEvents, h, calibEvents, modeAfter, stepMode]
  · left
    simp [batchEvents, h, modeAfter, stepMode]

theorem annotate_batchEvents_all (cb : List Nat) (i : Nat) :
    ((annotateMode 0 (batchEvents cb i)).all clsAtNormal) = true := by
  by_cases h : (i + 1) % 2 = 0 <;> cases cb <;>
    simp [batchEvents, h, calibEvents, annotateMode, stepMode, clsAtNormal]

theorem modeAfter_batchEvents_zero (cb : List Nat) (i : Nat) :
    modeAfter 0 (batchEvents cb i) = 0 := by
  rcases modeAfter_batchEvents cb i 0 with h | h <;> exact h

theorem annotate_blocks_all (cb : List Nat) (idxs : List Nat) :
    ((annotateMode 0 ((idxs.map (batchEvents cb)).flatten)).all clsAtNormal) = true := by
  induction idxs with
  | nil => simp [annotateMode]
  | cons i rest ih =>
      rw [List.map_cons, List.flatten_cons, annotateMode_append,
        modeAfter_batchEvents_zero, List.all_append]
      simp [annotate_batchEvents_all, ih]

theorem modeAfter_blocks_zero (cb : List Nat) (idxs : List Nat) :
    modeAfter 0 ((idxs.map (batchEvents cb)).flatten) = 0 := by
  induction idxs with
  | nil => simp [modeAfter]
  | cons i rest ih =>
      rw [List.map_cons, List.flatten_cons]
      show (batchEvents cb i ++ _).foldl stepMode 0 = 0
      rw [List.foldl_append]
      have h0 : (batchEvents cb i).foldl stepMode 0 = 0 :=
        modeAfter_batchEvents_zero cb i
      rw [h0]
      exact ih

/-- C1.  During an epoch of `train`, immediately before every 2nd
classification batch (indices `i` with `(i + 1) % 2 = 0`) the model is
switched to evaluation semantics, the whitening layers are set to
CALIBRATE, exactly one concept batch (the head of the concept loader)
is forwarded with gradient tracking disabled, and mode and training
semantics are restored before the classification forward of batch `i`;
`trainEvents` is a function of the cadence and the concept-batch
order, so the interleaving is deterministic. -/
theorem train_calibration_interleaving (c : Nat) (rest : List Nat) (i : Nat)
    (h : (i + 1) % 2 = 0) :
    batchEvents (c :: rest) i =
      [TEv.setTrainFlag false, TEv.changeMode 1, TEv.gradOff, TEv.conceptForward c,
       TEv.gradOn, TEv.changeMode 0, TEv.setTrainFlag true,
       TEv.clsForward i, TEv.backwardStep i, TEv.optStep i]
    ∧ (batchEvents (c :: rest) i).countP
        (fun e => match e with | TEv.conceptForward _ => true | _ => false) = 1
    ∧ ∀ n, trainEvents (c :: rest) n
        = TEv.setTrainFlag true :: ((List.range n).map (batchEvents (c :: rest))).flatten := by
  refine ⟨?_, ?_, fun n => rfl⟩
  · simp [batchEvents, h, calibEvents]
  · simp [batchEvents, h, calibEvents, List.countP_cons]

theorem train_calibration_interleaving_witness :
    (1 + 1) % 2 = 0
    ∧ (batchEvents [7] 1 =
        [TEv.setTrainFlag false, TEv.changeMode 1, TEv.gradOff, TEv.conceptForward 7,
         TEv.gradOn, TEv.changeMode 0, TEv.setTrainFlag true,
         TEv.clsForward 1, TEv.backwardStep 1, TEv.optStep 1]
      ∧ (batchEvents [7] 1).countP
          (fun e => match e with | TEv.conceptForward _ => true | _ => false) = 1
      ∧ ∀ n, trainEvents [7] n
          = TEv.setTrainFlag true :: ((List.range n).map (batchEvents [7])).flatten) :=
  ⟨by decide, train_calibration_interleaving 7 [] 1 (by decide)⟩

/-- C2.  The calibration sub-pass changes no classification-path
parameter and no optimizer state: whatever the whitening-layer update
does, the classification parameters and the optimizer state after the
sub-pass are exactly the ones before it. -/
theorem calibration_subpass_frame (upd : List ℚ → List ℚ) (s : ModelSnapshot) (o : List ℚ) :
    (calibSubPassS upd s o).1.clsParams = s.clsParams
    ∧ (calibSubPassS upd s o).2 = o :=
  ⟨rfl, rfl⟩

/-- C3.  Mode defaults to NORMAL; every classification forward,
backward and optimizer step in a `train` epoch executes at mode
NORMAL; both the in-training calibration sub-pass (as part of a
`train` epoch trace) and `rotate_cpt` leave the mode at NORMAL on
return; and the checkpoint record is independent of the mode
attribute, so mode is never persisted. -/
theorem mode_lifecycle_normal :
    modeDefault = 0
    ∧ (∀ cb n, ((annotateMode modeDefault (trainEvents cb n)).all clsAtNormal) = true)
    ∧ (∀ cb n, modeAfter modeDefault (trainEvents cb n) = 0)
    ∧ (∀ cb m, modeAfter m (rotateCptEvents cb) = 0)
    ∧ (∀ e a s best opt m,
        checkpointOf e a { s with mode := m } best opt = checkpointOf e a s best opt) := by
  refine ⟨rfl, ?_, ?_, ?_, ?_⟩
  · intro cb n
    show ((annotateMode 0 (TEv.setTrainFlag true :: _)).all clsAtNormal) = true
    rw [annotateMode]
    simp only [List.all_cons, stepMode]
    rw [annotate_blocks_all]
    rfl
  · intro cb n
    show (TEv.setTrainFlag true :: _).foldl stepMode 0 = 0
    rw [List.foldl_cons]
    exact modeAfter_blocks_zero cb (List.range n)
  · intro cb m
    simp [rotateCptEvents, modeAfter, List.foldl_append, stepMode]
  · intro e a s best opt m
    simp [checkpointOf, stateDict]

/-- C10.  The epoch loop of `main` runs exactly 5 epochs, from
`start_epoch` to `start_epoch + 4` inclusive, whatever value the
`--epochs` option carries; each epoch is followed by a validation and
a checkpoint save, and the concept-ranking export runs exactly once,
after the loop. -/
theorem main_runs_five_epochs (s e₁ e₂ : Nat) :
    mainLoopEvents s e₁ = mainLoopEvents s e₂
    ∧ mainLoopEvents s e₁ =
        epochBody s ++ epochBody (s + 1) ++ epochBody (s + 2) ++ epochBody (s + 3)
          ++ epochBody (s + 4) ++ [MEv.conceptExport]
    ∧ (mainLoopEvents s e₁).countP
        (fun e => match e with | MEv.trainEpochEv _ => true | _ => false) = 5
    ∧ (mainLoopEvents s e₁).countP
        (fun e => match e with | MEv.conceptExport => true | _ => false) = 1
    ∧ (mainLoopEvents s e₁).getLast? = some MEv.conceptExport := by
  refine ⟨rfl, ?_, ?_, ?_, ?_⟩ <;>
    simp [mainLoopEvents, epochBody, List.range', List.countP_cons]

/-- C6 counterexample.  The resume branch never tests the supplied
path: it tests the derived path obtained by inserting the
whitened-layers tag.  On a filesystem where the supplied path
`ab_checkpoint.pth.tar` does not exist but the derived path
`ab_1_checkpoint.pth.tar` does, `main` does not proceed from scratch:
it loads the checkpoint, sets the epoch counter to 3 and prints
loading messages instead of a no-checkpoint warning. -/
theorem resume_missing_supplied_path_cex :
    cexEnvC6.fileExists cexArgsC6.resume = false
    ∧ (resumeStep cexEnvC6 cexArgsC6 []).start_epoch = 3
    ∧ (resumeStep cexEnvC6 cexArgsC6 []).modelLoaded = some [5]
    ∧ (resumeStep cexEnvC6 cexArgsC6 []).messages =
        ["=> loading checkpoint ab_1_checkpoint.pth.tar",
         "=> loaded checkpoint ab_1_checkpoint.pth.tar"] := by
  refine ⟨rfl, ?_, ?_, ?_⟩ <;> decide

/-- C6 (amended).  If the derived checkpoint path — the supplied path
with the whitened-layers tag inserted before its final 19 characters —
does not name an existing file, the resume branch reports a
no-checkpoint message and training proceeds from scratch: with the
parser defaults the epoch counter stays 0, the best score stays 0, no
model state is loaded and the optimizer keeps its fresh state. -/
theorem resume_missing_derived_path_scratch (env : ResumeEnv) (a : ResumeArgs)
    (opt0 : List ℚ) (hne : a.resume ≠ "")
    (hmiss : env.fileExists (insertLayerTag a.resume a.whitened) = false)
    (hse : a.start_epoch = 0) (hb : a.best = 0) :
    resumeStep env a opt0 =
      { start_epoch := 0, best_prec1 := 0, modelLoaded := none,
        optimizerSt := opt0,
        messages := ["=> no checkpoint found at " ++ insertLayerTag a.resume a.whitened] } := by
  simp [resumeStep, hne, hmiss, hse, hb]

theorem resume_missing_derived_path_scratch_witness :
    missArgs.resume ≠ ""
    ∧ missEnv.fileExists (insertLayerTag missArgs.resume missArgs.whitened) = false
    ∧ missArgs.start_epoch = 0
    ∧ missArgs.best = 0
    ∧ resumeStep missEnv missArgs [9] =
        { start_epoch := 0, best_prec1 := 0, modelLoaded := none,
          optimizerSt := [9],
          messages := ["=> no checkpoint found at "
            ++ insertLayerTag missArgs.resume missArgs.whitened] } :=
  ⟨by decide, rfl, rfl, rfl,
    resume_missing_derived_path_scratch missEnv missArgs [9] (by decide) rfl rfl rfl⟩

/-- C7.  When the checked checkpoint path exists, the epoch counter,
best score and model state are loaded from the record; when the
record lacks the optimizer sub-record the optimizer keeps its freshly
initialized state, and when the sub-record is present the optimizer
state is loaded from it.  In both cases the resume branch returns
normally. -/
theorem resume_optimizer_record_optional (env : ResumeEnv) (a : ResumeArgs)
    (opt0 : List ℚ) (hne : a.resume ≠ "")
    (hex : env.fileExists (insertLayerTag a.resume a.whitened) = true) :
    (resumeStep env a opt0).start_epoch
        = (env.loadCkpt (insertLayerTag a.resume a.whitened)).epoch
    ∧ (resumeStep env a opt0).best_prec1
        = (env.loadCkpt (insertLayerTag a.resume a.whitened)).best_prec1
    ∧ (resumeStep env a opt0).modelLoaded
        = some (env.loadCkpt (insertLayerTag a.resume a.whitened)).state_dict
    ∧ ((env.loadCkpt (insertLayerTag a.resume a.whitened)).optimizerSt = none →
        (resumeStep env a opt0).optimizerSt = opt0)
    ∧ (∀ o, (env.loadCkpt (insertLayerTag a.resume a.whitened)).optimizerSt = some o →
        (resumeStep env a opt0).optimizerSt = o) := by
  refine ⟨?_, ?_, ?_, ?_, ?_⟩ <;>
    simp only [resumeStep, hne, hex, if_neg hne, if_pos rfl] <;>
    first
    | rfl
    | (intro h
       simp [resumeStep, hne, hex, h])
    | (intro o h
       simp [resumeStep, hne, hex, h])

theorem resume_optimizer_record_optional_witness :
    c7Args.resume ≠ ""
    ∧ c7Env.fileExists (insertLayerTag c7Args.resume c7Args.whitened) = true
    ∧ (resumeStep c7Env c7Args [4]).start_epoch = 7
    ∧ (resumeStep c7Env c7Args [4]).best_prec1 = 2
    ∧ (resumeStep c7Env c7Args [4]).modelLoaded = some [1, 2]
    ∧ (resumeStep c7Env c7Args [4]).optimizerSt = [4] := by
  have h := resume_optimizer_record_optional c7Env c7Args [4] (by decide) rfl
  exact ⟨by decide, rfl, h.1, h.2.1, h.2.2.1, h.2.2.2.1 rfl⟩

/-- C8 counterexample.  In `get_optimal_direction` the `outputs` list
is initialized once, before the batch loop, and is not cleared before
each forward pass: with one hooked layer and two concept batches, the
list already holds the first batch's capture when the second forward
pass starts, and after the loop it holds captures of both batches. -/
theorem hook_capture_clearing_cex :
    godOutputsBeforeForward cexCapture [1] [0, 1] 1 = [[1]]
    ∧ ([[1]] : List (List ℚ)) ≠ []
    ∧ (godOutputs cexCapture [1] [0, 1]).length = 2 := by
  refine ⟨rfl, ?_, rfl⟩
  decide

theorem scoresOfOutput_captured (A : ActMap) (b : List String) (l k : Nat) :
    scoresOfOutput k (capturedOutput A b l) = b.map (fun p => gridSum (A p l k)) := by
  simp [scoresOfOutput, capturedOutput, List.map_map, Function.comp]

theorem layerScores_cons (A : ActMap) (l k : Nat) (b : List String)
    (rest : List (List String)) :
    layerScores A l k (b :: rest)
      = b.map (fun p => gridSum (A p l k)) ++ layerScores A l k rest := by
  simp [layerScores]

theorem valsRows_eq (A : ActMap) (layerList : List Nat) (k : Nat)
    (stale : List (List (Nat → List (List ℚ)))) (batches : List (List String)) :
    valsRows A layerList k stale batches
      = layerList.map (fun l => layerScores A l k batches) := by
  induction batches generalizing stale with
  | nil => simp [valsRows, layerScores]
  | cons b rest ih =>
      simp only [valsRows, outputsAfterForward, ih, List.map_map]
      rw [List.zipWith_map (· ++ ·) _ _ layerList layerList, List.zipWith_same]
      refine List.map_congr_left (fun l _ => ?_)
      rw [Function.comp_apply, scoresOfOutput_captured, layerScores_cons]

/-- C8 (amended).  Every registered forward hook observes the hooked
layer without altering its return value; in `print_concept_top5` the
captured-activation list is rebound to empty before each forward pass,
so each batch's consumption sees exactly that batch's captures and no
stale data; in `get_optimal_direction` the list is instead initialized
once per call and deliberately accumulates one capture per hooked
layer per batch across the whole concept pass, to be consumed once at
the end. -/
theorem hook_capture_discipline :
    (∀ (α β γ : Type) (f : α → β) (cap : α → γ) (x : α),
        (hookedForward f cap x).1 = f x)
    ∧ (∀ (A : ActMap) (layerList : List Nat)
          (stale₁ stale₂ : List (List (Nat → List (List ℚ)))) (batch : List String),
        outputsAfterForward A layerList stale₁ batch
          = outputsAfterForward A layerList stale₂ batch)
    ∧ (∀ (C : Nat → Nat → List ℚ) (layerList : List Nat) (batches : List Nat) (b : Nat),
        godOutputs C layerList (batches ++ [b])
          = godOutputs C layerList batches ++ layerList.map (fun l => C b l))
    ∧ (∀ (C : Nat → Nat → List ℚ) (layerList : List Nat) (batches : List Nat),
        (godOutputs C layerList batches).length
          = batches.length * layerList.length) := by
  refine ⟨fun α β γ f cap x => rfl, fun A ll s₁ s₂ b => rfl, ?_, ?_⟩
  · intro C ll batches b
    simp [godOutputs]
  · intro C ll batches
    induction batches with
    | nil => simp [godOutputs]
    | cons hd tl ih =>
        simp only [godOutputs, List.map_cons, List.flatten_cons,
          List.length_append, List.length_map, List.length_cons] at *
        rw [ih]
        ring

/-- C5.  The concept ranking depends only on the validation set and
the model's activation map: two invocations with the same activations,
whatever leftover captured-activation state they start from, produce
the identical ordered per-layer result (same destination filenames,
same source paths, same order). -/
theorem concept_ranking_deterministic (A₁ A₂ : ActMap) (layerList : List Nat)
    (i k : Nat) (folder lname : String)
    (stale₁ stale₂ : List (List (Nat → List (List ℚ))))
    (batches : List (List String))
    (h : ∀ p ∈ allPaths batches, ∀ l kk, A₁ p l kk = A₂ p l kk) :
    invocationResultForLayer A₁ layerList i k folder lname stale₁ batches
      = invocationResultForLayer A₂ layerList i k folder lname stale₂ batches := by
  have hs : ∀ l, layerScores A₁ l k batches = layerScores A₂ l k batches := by
    intro l
    simp only [layerScores, allPaths] at *
    rw [← List.map_flatten, ← List.map_flatten]
    exact List.map_congr_left (fun p hp => by rw [h p hp l k])
  unfold invocationResultForLayer
  rw [valsRows_eq, valsRows_eq, List.map_congr_left (fun l _ => hs l)]

theorem concept_ranking_deterministic_witness :
    (∀ p ∈ allPaths wBatches, ∀ l kk, wAct p l kk = wAct p l kk)
    ∧ invocationResultForLayer wAct [2] 0 0 "plotdir/" "2" [] wBatches
      = invocationResultForLayer wAct [2] 0 0 "plotdir/" "2"
          [[fun _ => [[2]]]] wBatches :=
  ⟨fun p _ l kk => rfl,
    concept_ranking_deterministic wAct wAct [2] 0 0 "plotdir/" "2" []
      [[fun _ => [[2]]]] wBatches (fun p _ l kk => rfl)⟩

theorem layerScores_eq_map (A : ActMap) (l k : Nat) (batches : List (List String)) :
    layerScores A l k batches
      = (allPaths batches).map (fun p => gridSum (A p l k)) := by
  simp [layerScores, allPaths, List.map_flatten]

theorem layerMeanScores_eq_map (A : ActMap) (l k : Nat) (batches : List (List String)) :
    layerMeanScores A l k batches
      = (allPaths batches).map (fun p => gridMean (A p l k)) := by
  simp [layerMeanScores, allPaths, List.map_flatten]

theorem zip_map_self (g : String → ℚ) (l : List String) :
    (l.map g).zip l = l.map (fun p => (g p, p)) := by
  induction l with
  | nil => rfl
  | cons p l ih => simp [ih]

theorem orderedInsert_map_div (cq : ℚ) (hc : 0 < cq) (a : ℚ × String)
    (L : List (ℚ × String)) :
    List.orderedInsert descRel (a.1 / cq, a.2) (L.map (fun e => (e.1 / cq, e.2)))
      = (List.orderedInsert descRel a L).map (fun e => (e.1 / cq, e.2)) := by
  induction L with
  | nil => rfl
  | cons b L ih =>
      have hiff : descRel (a.1 / cq, a.2) (b.1 / cq, b.2) ↔ descRel a b := by
        simp [descRel, div_le_div_iff_of_pos_right hc]
      simp only [List.map_cons, List.orderedInsert]
      by_cases hd : descRel a b
      · rw [if_pos hd, if_pos (hiff.mpr hd), List.map_cons, List.map_cons]
      · rw [if_neg hd, if_neg (fun hx => hd (hiff.mp hx)), List.map_cons, ih]

theorem insertionSort_map_div (cq : ℚ) (hc : 0 < cq) (L : List (ℚ × String)) :
    List.insertionSort descRel (L.map (fun e => (e.1 / cq, e.2)))
      = (List.insertionSort descRel L).map (fun e => (e.1 / cq, e.2)) := by
  induction L with
  | nil => rfl
  | cons a L ih =>
      simp only [List.map_cons, List.insertionSort, ih]
      exact orderedInsert_map_div cq hc a (List.insertionSort descRel L)

theorem copiesForLayer_enum_snd (folder lname : String) (L : List (ℚ × String)) :
    copiesForLayer folder lname (L.map (fun e => (e.1, e.2)))
      = copiesForLayer folder lname L := by
  simp [copiesForLayer]

theorem copiesForLayer_map_div (folder lname : String) (cq : ℚ)
    (L : List (ℚ × String)) :
    copiesForLayer folder lname (L.map (fun e => (e.1 / cq, e.2)))
      = copiesForLayer folder lname L := by
  simp only [copiesForLayer, ← List.map_take, List.enum_map, List.map_map]
  exact List.map_congr_left (fun je _ => rfl)

/-- C4.  For a hooked layer and an inspected axis, under a uniform
spatial grid size (`c` positions, `c > 0`, as holds for the fixed
224-by-224 center-cropped inputs) and at least 50 validation images:
the script ranks the images exactly as the spec's spatial-mean score
does (the script's spatial sum is the mean scaled by the constant
positive factor `c`, and the stable descending sorts agree), it
retains exactly the top 50, and it copies them to filenames encoding
the layer name and the 1-based rank. -/
theorem concept_ranking_top50_spatial_mean (A : ActMap) (l k : Nat)
    (batches : List (List String)) (folder lname : String) (c : Nat)
    (hc : 0 < c)
    (hu : ∀ p ∈ allPaths batches, gridCount (A p l k) = c)
    (hlen : 50 ≤ (allPaths batches).length) :
    (rankedForLayer A l k batches).map Prod.snd
        = (rankedByMeanSpec A l k batches).map Prod.snd
    ∧ copiesForLayer folder lname (rankedForLayer A l k batches)
        = copiesForLayer folder lname (rankedByMeanSpec A l k batches)
    ∧ (copiesForLayer folder lname (rankedForLayer A l k batches)).length = 50 := by
  have hcq : (0 : ℚ) < (c : ℚ) := by exact_mod_cast hc
  have hentries :
      (layerMeanScores A l k batches).zip (allPaths batches)
        = ((layerScores A l k batches).zip (allPaths batches)).map
            (fun e => (e.1 / (c : ℚ), e.2)) := by
    rw [layerScores_eq_map, layerMeanScores_eq_map, zip_map_self, zip_map_self,
      List.map_map]
    refine List.map_congr_left (fun p hp => ?_)
    simp only [Function.comp_apply]
    rw [gridMean, hu p hp]
  have hmean :
      rankedByMeanSpec A l k batches
        = (rankedForLayer A l k batches).map (fun e => (e.1 / (c : ℚ), e.2)) := by
    rw [rankedByMeanSpec, rankedForLayer, sortEntries, sortEntries, hentries]
    exact insertionSort_map_div (c : ℚ) hcq _
  have hlen2 : (rankedForLayer A l k batches).length = (allPaths batches).length := by
    rw [rankedForLayer, sortEntries, List.length_insertionSort, List.length_zip,
      layerScores_eq_map, List.length_map, Nat.min_self]
  refine ⟨?_, ?_, ?_⟩
  · rw [hmean, List.map_map]
    exact (List.map_congr_left (fun e _ => rfl)).symm
  · rw [hmean, copiesForLayer_map_div]
  · rw [copiesForLayer, List.length_map, List.enum_length, List.length_take, hlen2]
    exact Nat.min_eq_left hlen

theorem concept_ranking_top50_spatial_mean_witness :
    0 < 1
    ∧ (∀ p ∈ allPaths wBatches, gridCount (wAct p 0 0) = 1)
    ∧ 50 ≤ (allPaths wBatches).length
    ∧ ((rankedForLayer wAct 0 0 wBatches).map Prod.snd
          = (rankedByMeanSpec wAct 0 0 wBatches).map Prod.snd
        ∧ copiesForLayer "plotdir/" "1" (rankedForLayer wAct 0 0 wBatches)
            = copiesForLayer "plotdir/" "1" (rankedByMeanSpec wAct 0 0 wBatches)
        ∧ (copiesForLayer "plotdir/" "1" (rankedForLayer wAct 0 0 wBatches)).length = 50) :=
  ⟨by decide, by decide, by decide,
    concept_ranking_top50_spatial_mean wAct 0 0 wBatches "plotdir/" "1" 1
      (by decide) (by decide) (by decide)⟩

theorem mul_sandwich {M : Type} [Monoid M] (a b d e : M)
    (h1 : a * d = 1) (h2 : b * e = 1) (hswap : b * d = d * b) :
    (a * b) * (d * e) = 1 := by
  rw [mul_assoc, ← mul_assoc b d e, hswap, mul_assoc d b e, h2, mul_one, h1]

theorem cayley_orthogonal {n : ℕ} (s : CalStep n) (hv : validStep s) :
    (cayley s)ᵀ * cayley s = 1 := by
  obtain ⟨hT, h1, h2⟩ := hv
  have hlt : (1 - s.gen)ᵀ = 1 + s.gen := by
    rw [Matrix.transpose_sub, Matrix.transpose_one, hT, sub_neg_eq_add]
  have hat : (1 + s.gen)ᵀ = 1 - s.gen := by
    rw [Matrix.transpose_add, Matrix.transpose_one, hT, ← sub_eq_add_neg]
  have hBt : s.invᵀ * (1 - s.gen) = 1 := by
    have := congrArg Matrix.transpose h1
    rw [Matrix.transpose_mul, hat, Matrix.transpose_one] at this
    exact this
  have hswap : (1 + s.gen) * (1 - s.gen) = (1 - s.gen) * (1 + s.gen) := by
    noncomm_ring
  rw [cayley, Matrix.transpose_mul, hlt]
  exact mul_sandwich s.invᵀ (1 + s.gen) (1 - s.gen) s.inv hBt h1 hswap

theorem calibUpdateRot_orthogonal {n : ℕ} (s : CalStep n)
    (R : Matrix (Fin n) (Fin n) ℚ) (hv : validStep s) (hR : isOrthogonalM R) :
    isOrthogonalM (calibUpdateRot s R) := by
  have hC := cayley_orthogonal s hv
  show (cayley s * R)ᵀ * (cayley s * R) = 1
  rw [Matrix.transpose_mul, mul_assoc, ← mul_assoc (cayley s)ᵀ (cayley s) R, hC,
    one_mul]
  exact hR

theorem applySteps_orthogonal {n : ℕ} :
    ∀ (steps : List (CalStep n)) (R0 : Matrix (Fin n) (Fin n) ℚ),
      (∀ s ∈ steps, validStep s) → isOrthogonalM R0 →
      isOrthogonalM (applySteps steps R0) := by
  intro steps
  induction steps with
  | nil =>
      intro R0 _ hR
      exact hR
  | cons s rest ih =>
      intro R0 hv hR
      exact ih (calibUpdateRot s R0)
        (fun x hx => hv x (List.mem_cons_of_mem s hx))
        (calibUpdateRot_orthogonal s R0 (hv s (List.mem_cons_self s rest)) hR)

/-- C9.  Orthogonality of the rotation matrix is an invariant of
calibration: if the initial rotation is orthogonal and every
CALIBRATE-mode forward applies a valid retraction step (a
skew-symmetric generator through the Cayley map), then after every
prefix of the update sequence — i.e. before and after every individual
update — the rotation satisfies rotationMatrix transposed times
rotationMatrix equals the identity, exactly (so within any fixed
bound). -/
theorem calibration_preserves_orthogonality (n : ℕ) (steps : List (CalStep n))
    (R0 : Matrix (Fin n) (Fin n) ℚ) (hv : ∀ s ∈ steps, validStep s)
    (hR : isOrthogonalM R0) :
    ∀ t, isOrthogonalM (applySteps (steps.take t) R0) := by
  intro t
  refine applySteps_orthogonal (steps.take t) R0 (fun s hs => ?_) hR
  exact hv s (List.take_subset t steps hs)

theorem calibration_preserves_orthogonality_witness :
    (∀ s ∈ [wStep], validStep s)
    ∧ isOrthogonalM (1 : Matrix (Fin 2) (Fin 2) ℚ)
    ∧ ∀ t, isOrthogonalM (applySteps ([wStep].take t) (1 : Matrix (Fin 2) (Fin 2) ℚ)) := by
  have hv : validStep wStep := by
    refine ⟨?_, ?_, ?_⟩ <;>
      · ext i j
        fin_cases i <;> fin_cases j <;>
          simp [wStep, wSkew, wInv, Matrix.mul_apply, Fin.sum_univ_two,
            Matrix.one_apply] <;> norm_num
  have hall : ∀ s ∈ [wStep], validStep s := by
    intro s hs
    simp only [List.mem_singleton] at hs
    rw [hs]
    exact hv
  have h0 : isOrthogonalM (1 : Matrix (Fin 2) (Fin 2) ℚ) := by
    simp [isOrthogonalM]
  exact ⟨hall, h0, calibration_preserves_orthogonality 2 [wStep] 1 hall h0⟩
